import Mathlib

/-!
# Verification of the versioned-datastore-tile-server rendering core

A shallow embedding, in Lean 4, of the tile-rendering pipeline of the
`maps` package (files `maps/tiles/__init__.py`, `maps/tiles/plot.py`,
`maps/tiles/gridded.py`, `maps/utils.py`, `maps/exceptions.py`,
`maps/query.py`), together with theorems settling the frozen claims about
the natural-language specification of that code.

Modelling conventions:
* Python numbers (ints and floats) are embedded as `ℚ`/`ℤ`/`ℕ`; all the
  discrete logic downstream of the web-mercator projection is exact on
  rationals, so nothing is lost.  The projection `translate_to_tile`
  itself evaluates transcendental functions, so functions consuming its
  output are parameterised by a projection `proj : ℚ → ℚ → ℚ × ℚ`;
  theorems quantify over `proj`, which covers the real projection, and
  concrete instantiations are justified at inputs where the Python float
  computation is exact (latitude 0, dyadic longitudes, tile (0,0,0)).
* Record documents are JSON trees (`Json` below); the `meta.geo`
  "lat,lon" string of a record is carried as the two parsed numbers.
* Python `dict`s with string keys are insertion-ordered association
  lists, matching CPython semantics.
* Exceptions are an explicit error type (`PyErr`) and fallible code
  returns `Except PyErr _`.
-/

namespace Maps

/-! ## `maps/utils.py`: clamp and is_power_of_two -/

/-- `utils.clamp(value, minimum, maximum) = max(minimum, min(value, maximum))`,
here at type `ℤ` (the tile code applies it to the integer zoom). -/
def clamp (value minimum maximum : ℤ) : ℤ :=
  max minimum (min value maximum)

/-- `utils.is_power_of_two(number) = number != 0 and number & (number - 1) == 0`.
The tile code applies it to `grid_size = width // grid_resolution ≥ 0`. -/
def is_power_of_two (number : ℕ) : Bool :=
  number ≠ 0 && (number &&& (number - 1)) = 0

/-! ## Python numeric primitives -/

/-- Python `int(x)` on a float: truncation toward zero. -/
def pyInt (q : ℚ) : ℤ :=
  if 0 ≤ q then ⌊q⌋ else -⌊-q⌋

/-- Python 3 `round(x)` on a float: round half to even (banker's rounding).
On integer-valued inputs it is the identity. -/
def pyRound (q : ℚ) : ℤ :=
  if q - ⌊q⌋ < 1/2 then ⌊q⌋
  else if q - ⌊q⌋ > 1/2 then ⌊q⌋ + 1
  else if ⌊q⌋ % 2 = 0 then ⌊q⌋ else ⌊q⌋ + 1

/-- Python list indexing `l[i]`: a negative index counts from the end, and
an index out of range raises `IndexError` (modelled as `none`). -/
def pyGetItem {α : Type} (l : List α) (i : ℤ) : Option α :=
  if 0 ≤ i then l[i.toNat]?
  else if i.natAbs ≤ l.length then l[l.length - i.natAbs]?
  else none

/-- Python `range(a, b)` over integers. -/
def intRange (a b : ℤ) : List ℤ :=
  (List.range (b - a).toNat).map (fun k => a + (k : ℤ))

/-! ## JSON documents and records -/

/-- Dynamic JSON-like values: the shape of the record documents stored in
the datastore and of the `point_data` dictionaries built by the tile code.
Objects are insertion-ordered association lists (CPython dicts). -/
inductive Json where
  | null : Json
  | num (q : ℚ) : Json
  | str (s : String) : Json
  | arr (xs : List Json) : Json
  | obj (fields : List (String × Json)) : Json
deriving Repr

/-- Key lookup in an object's field list (Python `d[k]` / `k in d`). -/
def jsonLookup (fields : List (String × Json)) (key : String) : Option Json :=
  match fields with
  | [] => none
  | (k, v) :: rest => if k = key then some v else jsonLookup rest key

/-- Field lookup on a `Json` value (`none` when not an object or missing). -/
def Json.lookup (j : Json) (key : String) : Option Json :=
  match j with
  | .obj fields => jsonLookup fields key
  | _ => none

/-- A record document as the tile code consumes it: `first['meta']['geo']`
is a `"lat,lon"` string, carried here as the two parsed numbers `geoLat`
and `geoLon` (the result of `map(float, geo.split(','))`), and
`first['data']` is the `data` subtree. -/
structure Record where
  geoLat : ℚ
  geoLon : ℚ
  data : Json
deriving Repr

/-- `query.BucketResult`: one cell of the geohash aggregation.
`centreLat`/`centreLon` are the geohash-decoded centre, `total` is
`doc_count`, `first` is the representative record, and `bboxJson` models
the GeoJSON polygon `as_geo_json_bbox()` computes from the external
geohash library's bounding box. -/
structure Bucket where
  centreLat : ℚ
  centreLon : ℚ
  total : ℕ
  first : Record
  bboxJson : Json
deriving Repr

/-! ## `maps/utils.py`: rebuild_data / rebuild_dict_or_list -/

/-- Python's `key.startswith("_")`: the key's first character is an
underscore. -/
def startsWithUnderscore (s : String) : Bool :=
  match s.data with
  | [] => false
  | c :: _ => c = '_'

mutual
/-- `utils.rebuild_dict_or_list`: a dict containing `"_u"` is replaced by
its `"_u"` value; any other dict is rebuilt recursively dropping keys that
start with `"_"` except `"_id"`; lists recurse element-wise; other values
are returned as-is. -/
def rebuild_dict_or_list : Json → Json
  | .obj fields =>
    match jsonLookup fields "_u" with
    | some u => u
    | none => .obj (rebuildFields fields)
  | .arr xs => .arr (rebuildArr xs)
  | v => v

/-- The dict comprehension inside `rebuild_dict_or_list`: keep a key when
it does not start with `"_"` or is exactly `"_id"`. -/
def rebuildFields : List (String × Json) → List (String × Json)
  | [] => []
  | (k, v) :: rest =>
    if ¬ startsWithUnderscore k ∨ k = "_id" then
      (k, rebuild_dict_or_list v) :: rebuildFields rest
    else rebuildFields rest

/-- The list comprehension inside `rebuild_dict_or_list`. -/
def rebuildArr : List Json → List Json
  | [] => []
  | x :: xs => rebuild_dict_or_list x :: rebuildArr xs
end

/-- `utils.rebuild_data`: rebuild every value of the root dict; the root
level itself performs no `"_u"` check and no underscore filtering. -/
def rebuild_data (parsed_data : List (String × Json)) : List (String × Json) :=
  parsed_data.map (fun kv => (kv.1, rebuild_dict_or_list kv.2))

/-! ## `maps/tiles/__init__.py`: point id encoding, diamond marking,
precision -/

/-- The encoding step of `Tile.get_point_id_generator`: `encoded_id =
point_id + 32`, then `+1` if `≥ 34` (skip `"`), then `+1` if `≥ 92`
(skip `\`).  The result is the code point of the returned character. -/
def encode_id (point_id : ℕ) : ℕ :=
  let e1 := point_id + 32
  let e2 := if e1 ≥ 34 then e1 + 1 else e1
  if e2 ≥ 92 then e2 + 1 else e2

/-- `Tile.get_points_to_mark(x, y, point_width)`: with
`offset = point_width // 2`, if `offset` is zero yield just `(x, y)`;
otherwise yield `(x+i, y+j)` for `i, j ∈ [-offset, offset]`, skipping the
four corners where `|i| = |j| = offset`. -/
def get_points_to_mark (x y : ℤ) (point_width : ℕ) : List (ℤ × ℤ) :=
  let offset : ℕ := point_width / 2
  if offset ≠ 0 then
    (intRange (-(offset : ℤ)) ((offset : ℤ) + 1)).flatMap (fun i =>
      (intRange (-(offset : ℤ)) ((offset : ℤ) + 1)).filterMap (fun j =>
        if i.natAbs = offset ∧ j.natAbs = offset then none
        else some (x + i, y + j)))
  else [(x, y)]

/-- The zoom-to-precision dict literal in `Tile.calculate_precision`. -/
def precision_dict : List (ℤ × ℕ) :=
  [(0, 3), (1, 3), (2, 4), (3, 4), (4, 5), (5, 5), (6, 6), (7, 6), (8, 7),
   (9, 7), (10, 8), (11, 9), (12, 9), (13, 10), (14, 10), (15, 11),
   (16, 11), (17, 11), (18, 12), (19, 12)]

/-- `Tile.calculate_precision`: index the dict with `clamp(z, 0, 19)`
(`none` would be a `KeyError`, which the clamp rules out). -/
def calculate_precision (z : ℤ) : Option ℕ :=
  precision_dict.lookup (clamp z 0 19)

/-! ## The `colour` library: HSL colours and linear ramps

The Python `colour` package stores colours as HSL triples with components
in `[0, 1]`, and `c1.range_to(c2, steps)` yields `steps` colours whose HSL
triples are linearly interpolated between the endpoints (`color_scale`
with `nb = steps - 1` interpolation intervals, endpoints included). -/

/-- An HSL colour triple, components in `[0, 1]` as in the `colour`
library. -/
structure HSL where
  h : ℚ
  s : ℚ
  l : ℚ
deriving DecidableEq, Repr

/-- One linear interpolation point of `colour.color_scale`:
`begin + (r / nb) · (end - begin)`, componentwise. -/
def hslLerp (c1 c2 : HSL) (r nb : ℕ) : HSL :=
  ⟨c1.h + (r : ℚ) / (nb : ℚ) * (c2.h - c1.h),
   c1.s + (r : ℚ) / (nb : ℚ) * (c2.s - c1.s),
   c1.l + (r : ℚ) / (nb : ℚ) * (c2.l - c1.l)⟩

/-- `colour.color_scale(begin_hsl, end_hsl, nb)`: the `nb + 1` linearly
spaced colours from `begin` to `end` inclusive. -/
def color_scale (c1 c2 : HSL) (nb : ℕ) : List HSL :=
  (List.range (nb + 1)).map (fun r => hslLerp c1 c2 r nb)

/-- `Color.range_to(value, steps)`: `color_scale` with `steps - 1`
intervals, i.e. `steps` colours. -/
def range_to (c1 c2 : HSL) (steps : ℕ) : List HSL :=
  color_scale c1 c2 (steps - 1)

/-- `Color('violet')` = `#ee82ee`: HSL `(300/360, 108/142, 368/510)`.
(r, g, b) = (238, 130, 238)/255; lightness `(max+min)/2 = 184/255 > 1/2`
so saturation is `diff/(2 - max - min) = 54/71`; the hue of this magenta
is 300 degrees, i.e. `5/6`. -/
def violetHSL : HSL := ⟨5/6, 54/71, 184/255⟩

/-- `Color('red')` = `#f00`: HSL `(0, 1, 1/2)`. -/
def redHSL : HSL := ⟨0, 1, 1/2⟩

/-- `Color('#ee0000')`: (238, 0, 0)/255 gives lightness `119/255 ≤ 1/2`,
saturation `diff/(max+min) = 1`, hue 0. -/
def ee0000HSL : HSL := ⟨0, 1, 119/255⟩

/-- `Color('#ffffff')`: white, HSL `(0, 0, 1)` (the library reports zero
saturation for white). -/
def whiteHSL : HSL := ⟨0, 0, 1⟩

/-! ## `maps/tiles/plot.py`: the longitude colour ramp of PlotTile -/

/-- `PlotTile.__init__`: `self.colours =
list(Color('violet').range_to(Color('red'), 360))`, a fixed 360-entry
ramp. -/
def plot_colours : List HSL := range_to violetHSL redHSL 360

/-- `PlotTile.choose_colour(longitude) = self.colours[int(longitude + 180)]`.
`none` models the `IndexError` raised when the index is out of range. -/
def choose_colour (longitude : ℚ) : Option HSL :=
  pyGetItem plot_colours (pyInt (longitude + 180))

/-- The colours used by `PlotTile.render` for each bucket: line 69 of
`plot.py` rebinds `point_colour = self.choose_colour(bucket.centre_longitude)`
before calling `draw_point(point_radius, point_colour.hex, border_width,
border_colour.hex, resize_factor)`, so the fill passed to `draw_point` is
the ramp colour and the border is the `border_colour` parameter.  This
function returns the `(fill, border)` pair per bucket (the fill is `none`
when `choose_colour` raises `IndexError`). -/
def plot_render_colours (buckets : List Bucket) (point_colour border_colour : HSL) :
    List (Option HSL × HSL) :=
  let _ := point_colour
  buckets.map (fun b => (choose_colour b.centreLon, border_colour))

/-! ## `maps/tiles/gridded.py`: assign_colour -/

/-- `bisect.bisect_left(thresholds, count)` where `thresholds` is sorted
ascending: the number of elements strictly below `count`. -/
def bisect_left (thresholds : List ℤ) (count : ℤ) : ℕ :=
  thresholds.countP (fun t => t < count)

/-- `int(math.exp(i))` for a natural `i`: `exp i > 0`, so Python's
truncation toward zero is the floor. -/
noncomputable def expFloor (i : ℕ) : ℤ := ⌊Real.exp i⌋

/-- The `thresholds` list of `GriddedTile.assign_colour`:
`[int(math.exp(i)) for i in range(range_size)]`. -/
noncomputable def expThresholds (range_size : ℕ) : List ℤ :=
  (List.range range_size).map expFloor

/-- `GriddedTile.assign_colour(count, cold, hot, range_size)` returns
`None` for count 0, else `colours[bisect_left(thresholds, count)]` where
`colours = cold.range_to(hot, range_size + 1)`.  This embedding returns
the pair of the chosen index and the colour list, which determines the
returned colour object. -/
noncomputable def assign_colour (count : ℤ) (cold hot : HSL) (range_size : ℕ) :
    Option (ℕ × List HSL) :=
  if count = 0 then none
  else some (bisect_left (expThresholds range_size) count, range_to cold hot (range_size + 1))

/-! ## `maps/exceptions.py` and Python runtime errors -/

/-- The errors the UTFGrid path can raise.  `gridNotPowerOfTwo` is
`GridNotPowerOfTwoException`; `typeError` models a `TypeError` from
calling a constructor with the wrong number of arguments; `valueError`
models a `ValueError` from unpacking a tuple of the wrong length. -/
inductive PyErr where
  | gridNotPowerOfTwo (gridWidth gridHeight : ℕ) : PyErr
  | typeError : PyErr
  | valueError : PyErr
deriving DecidableEq, Repr

/-- Instantiating `GridNotPowerOfTwoException`, whose `__init__` in
`maps/exceptions.py` requires the two positional arguments `grid_width`
and `grid_height`: a call with any other number of arguments raises
`TypeError` instead of producing the exception. -/
def raiseGridNotPowerOfTwoException : List ℕ → PyErr
  | [w, h] => .gridNotPowerOfTwo w h
  | _ => .typeError

/-! ## `Tile.as_grid` and the style-specific `get_marks` -/

/-- One element yielded by a `get_marks` implementation.  `six` is the
6-tuple `(latitude, longitude, x, y, total, first)` documented by
`Tile.get_marks` and produced by `GriddedTile.get_marks`; `three` is the
3-tuple `(point_data, x, y)` produced by `PlotTile.get_marks`. -/
inductive MarkTuple where
  | six (lat lon x y : ℚ) (total : ℕ) (first : Record) : MarkTuple
  | three (point_data : Json) (x y : ℚ) : MarkTuple
deriving Repr

/-- The `geo_filter` value `Tile.as_grid` stores for a point: a GeoJSON
Point at the reported coordinates (longitude first) with distance "1m". -/
def pointGeoFilter (report_longitude report_latitude : ℚ) : Json :=
  .obj [("type", .str "Point"),
        ("coordinates", .arr [.num report_longitude, .num report_latitude]),
        ("distance", .str "1m")]

/-- The `data[point_id]` dictionary `Tile.as_grid` builds for a mark
(lines 110-136): the reported coordinates are the record's parsed
`meta.geo` pair when `total == 1` and the mark's group coordinates
otherwise, and the entry always carries `count`, `data`, both reported
coordinates and a `geo_filter`. -/
def markDataEntry (lat lon : ℚ) (total : ℕ) (first : Record) : Json :=
  let report : ℚ × ℚ := if total = 1 then (first.geoLat, first.geoLon) else (lat, lon)
  .obj [("count", .num total),
        ("data", first.data),
        ("record_latitude", .num report.1),
        ("record_longitude", .num report.2),
        ("geo_filter", pointGeoFilter report.2 report.1)]

/-- The mutable state of the `as_grid` loop: the character grid as a
function from row `y` and column `x` to a code point (32 is the space the
grid is initialised with), the `keys` list, the insertion-ordered `data`
dict, and the next id the point id generator will yield. -/
structure GridState where
  cells : ℕ → ℕ → ℕ
  keys : List String
  data : List (String × Json)
  nextId : ℕ

/-- The initial `as_grid` state: an all-space grid, `keys = [""]`, empty
`data`, and the id generator about to yield 1. -/
def initGridState : GridState :=
  { cells := fun _ _ => 32, keys := [""], data := [], nextId := 1 }

/-- Write code point `c` at row `y`, column `x` of a functional grid
(`grid[y][x] = c`). -/
def writeCell (g : ℕ → ℕ → ℕ) (y x c : ℕ) : ℕ → ℕ → ℕ :=
  fun y' x' => if y' = y ∧ x' = x then c else g y' x'

/-- One iteration of the `as_grid` loop.  The loop header unpacks each
yielded tuple into the six names `latitude, longitude, x, y, total,
first`, so a 3-tuple (as yielded by `PlotTile.get_marks`) raises
`ValueError`.  For a 6-tuple it collects the in-bounds cells of the
diamond around the rounded position; when some cell is to be marked it
draws the next encoded id into those cells and appends the key and the
data entry. -/
def processMark (grid_size point_width : ℕ) (st : GridState) :
    MarkTuple → Except PyErr GridState
  | .three _ _ _ => .error .valueError
  | .six lat lon x y total first =>
    let to_mark := (get_points_to_mark (pyRound x) (pyRound y) point_width).filter
      (fun p => 0 ≤ p.1 ∧ p.1 < (grid_size : ℤ) ∧ 0 ≤ p.2 ∧ p.2 < (grid_size : ℤ))
    if to_mark = [] then .ok st
    else
      let encoded := encode_id st.nextId
      .ok { cells := to_mark.foldl (fun g p => writeCell g p.2.toNat p.1.toNat encoded) st.cells,
            keys := st.keys ++ [toString st.nextId],
            data := st.data ++ [(toString st.nextId, markDataEntry lat lon total first)],
            nextId := st.nextId + 1 }

/-- The `as_grid` loop over the iterable returned by `get_marks`. -/
def runMarks (grid_size point_width : ℕ) (st : GridState) :
    List MarkTuple → Except PyErr GridState
  | [] => .ok st
  | m :: ms =>
    match processMark grid_size point_width st m with
    | .error e => .error e
    | .ok st' => runMarks grid_size point_width st' ms

/-- The dict `Tile.as_grid` returns: `grid` is the list of rows joined
into strings (here rows of code points), plus `keys` and `data`. -/
structure UtfGrid where
  grid : List (List ℕ)
  keys : List String
  data : List (String × Json)
deriving Repr

/-- `Tile.as_grid(points, grid_resolution, point_width)` over the marks
its `get_marks` call produces: compute `grid_size = width //
grid_resolution`, raise unless it is a power of two (the raise site
passes a single argument to the two-argument
`GridNotPowerOfTwoException`), then run the marking loop and serialise
the grid rows. -/
def as_grid (width : ℕ) (marks : List MarkTuple) (grid_resolution point_width : ℕ) :
    Except PyErr UtfGrid :=
  let grid_size := width / grid_resolution
  if is_power_of_two grid_size then
    match runMarks grid_size point_width initGridState marks with
    | .error e => .error e
    | .ok st =>
      .ok { grid := (List.range grid_size).map (fun y => (List.range grid_size).map (st.cells y)),
            keys := st.keys,
            data := st.data }
  else .error (raiseGridNotPowerOfTwoException [grid_size])

/-! ## `maps/tiles/gridded.py`: group_points and get_marks -/

/-- The body of `GriddedTile.group_points`'s loop for one bucket, with
the web-mercator `translate_to_tile` abstracted as `proj` (the
cell-ratio scaling is baked into `proj`): project the bucket, skip it
when out of bounds (the bounds check runs on the unrounded floats), else
accumulate the total at cell `(int(x), int(y))` and keep the first
record assigned to the cell. -/
def group_points_step (proj : ℚ → ℚ → ℚ × ℚ) (grid_size : ℕ)
    (g : ℕ → ℕ → ℕ × Option Record) (b : Bucket) : ℕ → ℕ → ℕ × Option Record :=
  let xy := proj b.centreLat b.centreLon
  if xy.1 < 0 ∨ (grid_size : ℚ) ≤ xy.1 ∨ xy.2 < 0 ∨ (grid_size : ℚ) ≤ xy.2 then g
  else
    let xi := (pyInt xy.1).toNat
    let yi := (pyInt xy.2).toNat
    fun y x =>
      if y = yi ∧ x = xi then
        ((g y x).1 + b.total,
         match (g y x).2 with
         | none => some b.first
         | some r => some r)
      else g y x

/-- `GriddedTile.group_points(points, grid_resolution)`: start from a
blank grid (represented as a function from `(y, x)` to
`(total, first)`) and fold the per-bucket step over the bucket list. -/
def group_points (proj : ℚ → ℚ → ℚ × ℚ) (points : List Bucket)
    (width grid_resolution : ℕ) : ℕ → ℕ → ℕ × Option Record :=
  points.foldl (group_points_step proj (width / grid_resolution)) (fun _ _ => (0, none))

/-- `GriddedTile.get_marks(points, grid_resolution)`: iterate the grouped
grid row by row (y outer, x inner), skip empty cells, and yield the
6-tuple whose latitude and longitude are parsed from the cell's first
record's `meta.geo`.  A non-empty cell always holds a record (set
together with its first count), so the `none` branch is unreachable. -/
def gridded_get_marks (proj : ℚ → ℚ → ℚ × ℚ) (points : List Bucket)
    (width grid_resolution : ℕ) : List MarkTuple :=
  let grid_size := width / grid_resolution
  let g := group_points proj points width grid_resolution
  (List.range grid_size).flatMap (fun y =>
    (List.range grid_size).filterMap (fun x =>
      match g y x with
      | (0, _) => none
      | (_, none) => none
      | (total, some first) =>
        some (.six first.geoLat first.geoLon (x : ℚ) (y : ℚ) total first)))

/-- The UTFGrid entry point for the gridded style:
`GriddedTile` inherits `Tile.as_grid`, which consumes
`GriddedTile.get_marks`. -/
def gridded_as_grid (proj : ℚ → ℚ → ℚ × ℚ) (points : List Bucket)
    (width grid_resolution point_width : ℕ) : Except PyErr UtfGrid :=
  as_grid width (gridded_get_marks proj points width grid_resolution)
    grid_resolution point_width

/-! ## `maps/tiles/plot.py`: get_marks -/

/-- The `point_data` dict `PlotTile.get_marks` builds for a bucket:
`count` and `data` always; the record's parsed `meta.geo` pair when
`total == 1`, otherwise the bucket centre plus the bucket's GeoJSON bbox
as `geo_filter`. -/
def plotPointData (b : Bucket) : Json :=
  if b.total = 1 then
    .obj [("count", .num b.total), ("data", b.first.data),
          ("record_latitude", .num b.first.geoLat),
          ("record_longitude", .num b.first.geoLon)]
  else
    .obj [("count", .num b.total), ("data", b.first.data),
          ("record_latitude", .num b.centreLat),
          ("record_longitude", .num b.centreLon),
          ("geo_filter", b.bboxJson)]

/-- `PlotTile.get_marks(buckets, grid_resolution)`: one 3-tuple
`(point_data, x, y)` per bucket at its grid-scaled tile position (the
projection at cell ratio is `proj`). -/
def plot_get_marks (proj : ℚ → ℚ → ℚ × ℚ) (buckets : List Bucket) : List MarkTuple :=
  buckets.map (fun b =>
    let xy := proj b.centreLat b.centreLon
    .three (plotPointData b) xy.1 xy.2)

/-- The UTFGrid entry point for the plot style: `PlotTile` inherits
`Tile.as_grid`, which consumes `PlotTile.get_marks`. -/
def plot_as_grid (proj : ℚ → ℚ → ℚ × ℚ) (buckets : List Bucket)
    (width grid_resolution point_width : ℕ) : Except PyErr UtfGrid :=
  as_grid width (plot_get_marks proj buckets) grid_resolution point_width

/-! ## Derived observations on UTFGrid results -/

/-- The number of distinct non-space characters appearing in the grid. -/
def distinctNonSpaceCount (g : UtfGrid) : ℕ :=
  ((g.grid.flatten.filter (fun c => c ≠ 32)).dedup).length

/-- A mark that is a 6-tuple sitting exactly on the integer cell `c` of a
`grid_size`-sized grid — the shape of every mark `GriddedTile.get_marks`
yields. -/
def sixAtCell (grid_size : ℕ) (m : MarkTuple) (c : ℕ × ℕ) : Prop :=
  ∃ lat lon total first,
    m = MarkTuple.six lat lon (c.1 : ℚ) (c.2 : ℚ) total first ∧
    c.1 < grid_size ∧ c.2 < grid_size

/-- The `(x, y)` cells of the non-empty grouped grid cells, in the order
`GriddedTile.get_marks` visits them. -/
def griddedCells (proj : ℚ → ℚ → ℚ × ℚ) (points : List Bucket)
    (width grid_resolution : ℕ) : List (ℕ × ℕ) :=
  let grid_size := width / grid_resolution
  let g := group_points proj points width grid_resolution
  (List.range grid_size).flatMap (fun y =>
    (List.range grid_size).filterMap (fun x =>
      match g y x with
      | (0, _) => none
      | (_, none) => none
      | (_ + 1, some _) => some (x, y)))

/-! ## Concrete fixtures

Buckets at latitude 0 with dyadic longitudes on tile `(0, 0, 0)`: at these
inputs every floating-point operation of the projection is exact, so the
projection values below are the true web-mercator values.
`translate_to_tile` at tile `(0, 0, 0)`: the tile middle is `(0, 0)`
(`atan(sinh(0)) = 0` and `0.5 · 360 − 180 = 0`), `latitude_to_y(0) = 1/2`,
`longitude_to_x(lon) = (lon + 180)/360`, so at cell ratio `1/128`
(`grid_resolution = 128`, grid 2×2, scaled width `256/128 = 2`):
`x = ((lon + 180)/360 − 1/2)·2 + 1` and `y = (1/2 − 1/2)·2 + 1 = 1`.
Longitude −90 gives `x = 1/2` and longitude 90 gives `x = 3/2`. -/

/-- A record at latitude 0, longitude −90 (`meta.geo = "0.0,-90.0"`) whose
`data` subtree holds a Splitgill value dict `{"a": {"_u": 5}}`. -/
def recordWest : Record := ⟨0, -90, .obj [("a", .obj [("_u", .num 5)])]⟩

/-- A record at latitude 0, longitude 90. -/
def recordEast : Record := ⟨0, 90, .null⟩

/-- A single-record bucket centred at `(0, -90)`. -/
def bucketWest : Bucket := ⟨0, -90, 1, recordWest, .null⟩

/-- A single-record bucket centred at `(0, 90)`. -/
def bucketEast : Bucket := ⟨0, 90, 1, recordEast, .null⟩

/-- The exact value of tile `(0, 0, 0)`'s `translate_to_tile` at cell
ratio `1/128` on the two bucket centres above (see the fixture note):
latitude 0 always lands at `y = 1`, longitude −90 at `x = 1/2` and
longitude 90 at `x = 3/2`. -/
def projTile0 : ℚ → ℚ → ℚ × ℚ :=
  fun _ lon => (if lon < 0 then 1/2 else 3/2, 1)

/-- The precision table exactly as the claim enumerates it: zooms 0-1
give 3, 2-3 give 4, 4-5 give 5, 6-7 give 6, 8-9 give 7, 10 gives 8,
11-12 give 9, 13-14 give 10, 15-17 give 11, 18-19 give 12. -/
def precision_spec_table (z : ℤ) : ℕ :=
  if z ≤ 1 then 3
  else if z ≤ 3 then 4
  else if z ≤ 5 then 5
  else if z ≤ 7 then 6
  else if z ≤ 9 then 7
  else if z ≤ 10 then 8
  else if z ≤ 12 then 9
  else if z ≤ 14 then 10
  else if z ≤ 17 then 11
  else 12

/-- `Color('#f4f11a')`, the gridded default cold colour:
(244, 241, 26)/255, lightness `(270/255)/2 = 9/17 > 1/2`, saturation
`218/240 = 109/120`, hue `(215/218)/6 = 215/1308`. -/
def coldDefaultHSL : HSL := ⟨215/1308, 109/120, 9/17⟩

/-- `Color('#f02323')`, the gridded default hot colour: (240, 35, 35)/255,
lightness `55/102 > 1/2`, saturation `205/235 = 41/47`, hue 0. -/
def hotDefaultHSL : HSL := ⟨0, 41/47, 55/102⟩

/-!
# Theorems settling the claims
-/

/-! ## C9: precision selection -/

/-- **C9** (confirmed).  For every integer `z`, `calculate_precision`
equals the claim's table value at `clamp(z, 0, 19)`; in particular the
precision is 5 at `z = 5`, 9 at `z = 11`, and 12 at `z = 25` (clamped). -/
theorem calculate_precision_matches_table :
    (∀ z : ℤ, calculate_precision z = some (precision_spec_table (clamp z 0 19))) ∧
    calculate_precision 5 = some 5 ∧
    calculate_precision 11 = some 9 ∧
    calculate_precision 25 = some 12 := by
  refine ⟨fun z => ?_, by decide, by decide, by decide⟩
  have h0 : 0 ≤ clamp z 0 19 := le_max_left _ _
  have h19 : clamp z 0 19 ≤ 19 := max_le (by norm_num) (min_le_right _ _)
  unfold calculate_precision
  set w := clamp z 0 19 with hw
  clear_value w
  interval_cases w <;> decide

/-! ## C5: the marked cells around a point -/

/-- **C5** (code_bug).  With `point_width = 3`, the cells painted around
`(4, 4)` are exactly the 5-cell plus-shape, all inside an 8×8 grid; but
with `point_width = 5` the code paints 21 distinct cells (a 5×5 square
minus its four corners), not the 13-cell diamond that the claim — and the
docstring picture of `get_points_to_mark` itself — describe. -/
theorem points_to_mark_five_and_twentyone :
    (get_points_to_mark 4 4 3).toFinset =
      ({((4 : ℤ), (4 : ℤ)), (3, 4), (5, 4), (4, 3), (4, 5)} : Finset (ℤ × ℤ)) ∧
    ((get_points_to_mark 4 4 3).filter
        (fun p => 0 ≤ p.1 ∧ p.1 < 8 ∧ 0 ≤ p.2 ∧ p.2 < 8)) = get_points_to_mark 4 4 3 ∧
    (get_points_to_mark 4 4 5).toFinset.card = 21 ∧
    ((get_points_to_mark 4 4 5).filter
        (fun p => 0 ≤ p.1 ∧ p.1 < 8 ∧ 0 ≤ p.2 ∧ p.2 < 8)) = get_points_to_mark 4 4 5 ∧
    (get_points_to_mark 4 4 5).toFinset.card ≠ 13 := by
  refine ⟨by decide, by decide, by decide, by decide, by decide⟩

/-! ## C6: the failed power-of-two check -/

/-- **C6** (code_bug).  When `grid_size = width // grid_resolution` is not
a power of two, `as_grid` does fail before building any grid — but with a
`TypeError`, not with `GridNotPowerOfTwoException`: the raise site passes
a single argument to the exception's two-argument constructor. -/
theorem as_grid_not_power_of_two_raises_type_error :
    ∀ (width : ℕ) (marks : List MarkTuple) (grid_resolution point_width : ℕ),
      is_power_of_two (width / grid_resolution) = false →
      as_grid width marks grid_resolution point_width = .error .typeError := by
  intro width marks gr pw h
  unfold as_grid
  simp only [h]
  rfl

/-- Witness for C6: `width = 256`, `grid_resolution = 3` gives
`grid_size = 85`, not a power of two, and the error raised is the
`TypeError`, which is not the `GridNotPowerOfTwoException`. -/
theorem as_grid_not_power_of_two_witness :
    is_power_of_two (256 / 3) = false ∧
    as_grid 256 [] 3 1 = .error .typeError ∧
    PyErr.typeError ≠ PyErr.gridNotPowerOfTwo 85 85 :=
  ⟨by decide, as_grid_not_power_of_two_raises_type_error 256 [] 3 1 (by decide), by decide⟩

/-! ## C1: the shape of the as_grid result -/

/-- **C1** (code_bug).  The plot style cannot return the UTFGrid dict for
a non-empty bucket list at all: `Tile.as_grid` unpacks each element of
`get_marks` into six names, while `PlotTile.get_marks` yields 3-tuples,
so the loop raises `ValueError` — here evaluated on a single bucket with
`grid_resolution = 4` (grid size 64, a power of two) and
`point_width = 3`. -/
theorem plot_as_grid_raises_value_error :
    plot_as_grid projTile0 [bucketWest] 256 4 3 = .error .valueError := by
  rfl

/-! ## C10: bounds of the longitude colour index -/

/-- The colour ramp built in `PlotTile.__init__` has exactly 360
entries. -/
theorem plot_colours_length : plot_colours.length = 360 := by
  simp [plot_colours, range_to, color_scale]

/-- For a longitude whose shifted value `lon + 180` lies in `[0, 360)`,
`choose_colour` returns the ramp entry at index `⌊lon + 180⌋`, which is
the linear interpolation point of that index. -/
theorem choose_colour_eq (lon : ℚ) (hge : 0 ≤ lon + 180) (hlt : lon + 180 < 360) :
    choose_colour lon = some (hslLerp violetHSL redHSL (⌊lon + 180⌋).toNat 359) := by
  have hfl : (0 : ℤ) ≤ ⌊lon + 180⌋ := Int.floor_nonneg.2 hge
  have hflt : ⌊lon + 180⌋ < 360 := by
    have h1 : (⌊lon + 180⌋ : ℚ) ≤ lon + 180 := Int.floor_le _
    exact_mod_cast lt_of_le_of_lt h1 hlt
  have hidx : (⌊lon + 180⌋).toNat < 360 := by omega
  unfold choose_colour pyGetItem pyInt
  rw [if_pos hge, if_pos hfl]
  unfold plot_colours range_to color_scale
  rw [List.getElem?_map]
  have hidx2 : (⌊lon + 180⌋).toNat < 360 - 1 + 1 := by omega
  rw [List.getElem?_range hidx2]
  rfl

/-- **C10** (confirmed).  `choose_colour` indexes the fixed 360-entry
ramp with `int(longitude + 180)`: for every longitude with
`-180 ≤ longitude < 180` the access is in bounds, while at
`longitude = 180` the index is 360 and the access raises `IndexError`
(modelled by `none`). -/
theorem choose_colour_in_bounds :
    (∀ lon : ℚ, -180 ≤ lon → lon < 180 → (choose_colour lon).isSome = true) ∧
    choose_colour 180 = none ∧
    plot_colours.length = 360 := by
  refine ⟨fun lon h1 h2 => ?_, ?_, plot_colours_length⟩
  · rw [choose_colour_eq lon (by linarith) (by linarith)]
    rfl
  · unfold choose_colour pyGetItem pyInt
    have h1 : ((180 : ℚ) + 180) = 360 := by norm_num
    have h2 : (⌊(360 : ℚ)⌋ : ℤ) = 360 := by norm_num
    rw [h1, h2, if_pos (by norm_num)]
    exact List.getElem?_eq_none (le_of_eq plot_colours_length)

/-- Witness for C10: longitude 0 is in range, so the access succeeds. -/
theorem choose_colour_in_bounds_witness :
    (-180 : ℚ) ≤ 0 ∧ (0 : ℚ) < 180 ∧ (choose_colour 0).isSome = true :=
  ⟨by norm_num, by norm_num,
    choose_colour_in_bounds.1 0 (by norm_num) (by norm_num)⟩

/-! ## C4: the plot renderer's disc colours -/

/-- **C4** (corrected: counterexample).  Rendering the two fixture
buckets with `point_colour = #ee0000` and `border_colour = #ffffff` does
not use the flat supplied point colour: the fills are the ramp colours of
the two longitudes, which differ from each other and from `#ee0000`. -/
theorem plot_render_not_flat_colour :
    plot_render_colours [bucketWest, bucketEast] ee0000HSL whiteHSL ≠
      [(some ee0000HSL, whiteHSL), (some ee0000HSL, whiteHSL)] ∧
    choose_colour bucketWest.centreLon ≠ choose_colour bucketEast.centreLon := by
  have hW : choose_colour (-90 : ℚ) = some (hslLerp violetHSL redHSL 90 359) := by
    have h : (⌊(-90 : ℚ) + 180⌋) = 90 := by norm_num
    rw [choose_colour_eq (-90) (by norm_num) (by norm_num), h]
    rfl
  have hE : choose_colour (90 : ℚ) = some (hslLerp violetHSL redHSL 270 359) := by
    have h : (⌊(90 : ℚ) + 180⌋) = 270 := by norm_num
    rw [choose_colour_eq 90 (by norm_num) (by norm_num), h]
    rfl
  have hne : hslLerp violetHSL redHSL 90 359 ≠ hslLerp violetHSL redHSL 270 359 := by
    simp only [hslLerp, violetHSL, redHSL, HSL.mk.injEq, not_and]
    intro h
    norm_num at h
  have hneRed : hslLerp violetHSL redHSL 90 359 ≠ ee0000HSL := by
    simp only [hslLerp, violetHSL, redHSL, ee0000HSL, HSL.mk.injEq, not_and]
    intro h
    norm_num at h
  have hbW : bucketWest.centreLon = -90 := rfl
  have hbE : bucketEast.centreLon = 90 := rfl
  have hlist : plot_render_colours [bucketWest, bucketEast] ee0000HSL whiteHSL =
      [(choose_colour (-90), whiteHSL), (choose_colour 90, whiteHSL)] := by
    simp [plot_render_colours, hbW, hbE]
  constructor
  · rw [hlist, hW, hE]
    intro h
    simp only [List.cons.injEq, Prod.mk.injEq, Option.some.injEq] at h
    exact hneRed h.1.1
  · rw [hbW, hbE, hW, hE]
    intro h
    simp only [Option.some.injEq] at h
    exact hne h

/-- **C4** (corrected: amended).  In `PlotTile.render` the fill colour of
every bucket's disc is the ramp colour `choose_colour(centre_longitude)`
— the supplied `point_colour` is shadowed and has no effect — while the
border keeps the supplied `border_colour`. -/
theorem plot_render_uses_longitude_ramp :
    ∀ (buckets : List Bucket) (pc pc' bc : HSL) (i : ℕ) (b : Bucket),
      buckets[i]? = some b →
      (plot_render_colours buckets pc bc)[i]? = some (choose_colour b.centreLon, bc) ∧
      plot_render_colours buckets pc bc = plot_render_colours buckets pc' bc := by
  intro buckets pc pc' bc i b hb
  constructor
  · unfold plot_render_colours
    rw [List.getElem?_map, hb]
    rfl
  · rfl

/-- Witness for C4's amended theorem at the fixture buckets. -/
theorem plot_render_uses_longitude_ramp_witness :
    ([bucketWest, bucketEast][0]? = some bucketWest) ∧
    (plot_render_colours [bucketWest, bucketEast] ee0000HSL whiteHSL)[0]? =
      some (choose_colour bucketWest.centreLon, whiteHSL) :=
  ⟨rfl, (plot_render_uses_longitude_ramp [bucketWest, bucketEast] ee0000HSL
    violetHSL whiteHSL 0 bucketWest rfl).1⟩

/-! ## C8: the gridded exponential colour bands -/

/-- `int(math.exp(0)) = 1`. -/
theorem expFloor_zero : expFloor 0 = 1 := by
  unfold expFloor
  norm_num

/-- `int(math.exp(1)) = 2`. -/
theorem expFloor_one : expFloor 1 = 2 := by
  unfold expFloor
  have h1 : ((1 : ℕ) : ℝ) = 1 := by norm_num
  rw [h1, Int.floor_eq_iff]
  have el := Real.exp_one_gt_d9
  have eu := Real.exp_one_lt_d9
  constructor <;> push_cast <;> nlinarith

/-- `int(math.exp(2)) = 7`. -/
theorem expFloor_two : expFloor 2 = 7 := by
  unfold expFloor
  have h2 : ((2 : ℕ) : ℝ) = 1 + 1 := by norm_num
  rw [h2, Real.exp_add, Int.floor_eq_iff]
  have el := Real.exp_one_gt_d9
  have eu := Real.exp_one_lt_d9
  constructor <;> push_cast <;> nlinarith

/-- `int(math.exp(3)) = 20`. -/
theorem expFloor_three : expFloor 3 = 20 := by
  unfold expFloor
  have h3 : ((3 : ℕ) : ℝ) = 1 + 1 + 1 := by norm_num
  rw [h3, Real.exp_add, Real.exp_add, Int.floor_eq_iff]
  have el := Real.exp_one_gt_d9
  have eu := Real.exp_one_lt_d9
  constructor <;> push_cast <;> nlinarith

/-- The thresholds list for the default-free test size 4 is `[1, 2, 7, 20]`,
exactly as the spec's own worked scenario states. -/
theorem expThresholds_four : expThresholds 4 = [1, 2, 7, 20] := by
  unfold expThresholds
  have h : List.range 4 = [0, 1, 2, 3] := by decide
  rw [h]
  simp [expFloor_zero, expFloor_one, expFloor_two, expFloor_three]

/-- `int(math.exp(i))` is monotone in `i`. -/
theorem expFloor_mono : Monotone expFloor := by
  intro a b hab
  exact Int.floor_le_floor (Real.exp_le_exp.2 (by exact_mod_cast hab))

/-- Counting the elements of `range n` that satisfy a predicate that
holds exactly up to `k < n` gives `k + 1`. -/
theorem countP_range_le (n k : ℕ) (p : ℕ → Bool) (hk : k < n)
    (hp : ∀ i, p i = true ↔ i ≤ k) : (List.range n).countP p = k + 1 := by
  induction n with
  | zero => omega
  | succ n ih =>
    rw [List.range_succ, List.countP_append]
    by_cases hkn : k < n
    · rw [ih hkn]
      have hpn : p n = false := by
        rcases hpn : p n with _ | _
        · rfl
        · exact absurd ((hp n).1 hpn) (by omega)
      rw [List.countP_cons, List.countP_nil, hpn]
      simp
    · have hkeq : k = n := by omega
      have hall : (List.range n).countP p = n := by
        have h : (List.range n).countP p = (List.range n).length :=
          List.countP_eq_length.2 (fun i hi => by
            rw [hp i]
            rw [List.mem_range] at hi
            omega)
        rw [h, List.length_range]
      have hn : p n = true := (hp n).2 (by omega)
      rw [List.countP_cons, List.countP_nil, hall, hn, hkeq]
      simp

/-- **C8** (corrected: counterexample).  With `range_size = 4`, the count
`c = 1` lies in the claim's `k = 0` band (`e^0 ≤ 1 < e^1`) yet receives
colour index 0, not `k + 1 = 1`: `bisect_left([1, 2, 7, 20], 1) = 0`, so
the cold endpoint colour is used (the spec's own worked scenario 5 lists
`bisect_left` results `[0, 1, 3, 4]` for counts `[1, 2, 8, 100]`, in
agreement with the code and against the claimed band mapping). -/
theorem assign_colour_count_one_gets_index_zero :
    Real.exp 0 ≤ (1 : ℝ) ∧ (1 : ℝ) < Real.exp (0 + 1) ∧
    assign_colour 1 coldDefaultHSL hotDefaultHSL 4 =
      some (0, range_to coldDefaultHSL hotDefaultHSL 5) ∧
    (0 : ℕ) ≠ 0 + 1 := by
  refine ⟨by norm_num, ?_, ?_, by norm_num⟩
  · norm_num
  · unfold assign_colour
    rw [if_neg (by norm_num), expThresholds_four]
    have : bisect_left [1, 2, 7, 20] 1 = 0 := by decide
    rw [this]

/-- **C8** (corrected: amended).  For every `range_size ≥ 1` and every
band index `k` with `1 ≤ k < range_size`, every integer count `c` in the
integer band delimited by the code's thresholds —
`int(e^k) < c ≤ int(e^(k+1))`, which is the set of integers in
`[e^k, e^(k+1))` whenever `e^k` is not an integer, as holds for every
`k ≥ 1` — receives colour index `k + 1` in the ramp of `range_size + 1`
colours.  The `k = 0` band splits: count 1 gets index 0 (see the
counterexample) and count 2 gets index 1. -/
theorem assign_colour_bands :
    ∀ (range_size k : ℕ) (c : ℤ) (cold hot : HSL),
      1 ≤ k → k < range_size → expFloor k < c → c ≤ expFloor (k + 1) →
      assign_colour c cold hot range_size =
        some (k + 1, range_to cold hot (range_size + 1)) := by
  intro range_size k c cold hot hk1 hkr hlo hhi
  have hc0 : c ≠ 0 := by
    have h1 : expFloor 1 ≤ expFloor k := expFloor_mono hk1
    rw [expFloor_one] at h1
    omega
  unfold assign_colour
  rw [if_neg hc0]
  have hcount : bisect_left (expThresholds range_size) c = k + 1 := by
    unfold bisect_left expThresholds
    rw [List.countP_map]
    refine countP_range_le range_size k _ hkr (fun i => ?_)
    simp only [Function.comp_apply, decide_eq_true_eq]
    constructor
    · intro hi
      by_contra hik
      have : expFloor (k + 1) ≤ expFloor i := expFloor_mono (show k + 1 ≤ i by omega)
      omega
    · intro hik
      have : expFloor i ≤ expFloor k := expFloor_mono hik
      omega
  rw [hcount]

/-- Witness for C8's amended theorem: `range_size = 4`, `k = 1`, `c = 3`
(the band `int(e^1) = 2 < 3 ≤ 7 = int(e^2)`) receives index 2. -/
theorem assign_colour_bands_witness :
    assign_colour 3 coldDefaultHSL hotDefaultHSL 4 =
      some (2, range_to coldDefaultHSL hotDefaultHSL 5) :=
  assign_colour_bands 4 1 3 coldDefaultHSL hotDefaultHSL (by norm_num)
    (by norm_num) (by rw [expFloor_one]; norm_num)
    (by rw [expFloor_two]; norm_num)


/-! ## Shared structure of `as_grid` runs -/

/-- Every data entry of a completed `as_grid` loop is either inherited
from the starting state or is the `markDataEntry` of one of the 6-tuple
marks processed. -/
theorem runMarks_data_mem (gs pw : ℕ) :
    ∀ (marks : List MarkTuple) (st st' : GridState),
      runMarks gs pw st marks = .ok st' →
      ∀ e ∈ st'.data, e ∈ st.data ∨
        ∃ lat lon x y total first,
          MarkTuple.six lat lon x y total first ∈ marks ∧
          e.2 = markDataEntry lat lon total first := by
  intro marks
  induction marks with
  | nil =>
    intro st st' h e he
    unfold runMarks at h
    cases h
    exact .inl he
  | cons m ms ih =>
    intro st st' h e he
    unfold runMarks at h
    cases hm : processMark gs pw st m with
    | error err => rw [hm] at h; cases h
    | ok st₁ =>
      rw [hm] at h
      rcases ih st₁ st' h e he with h₁ | ⟨lat, lon, x, y, total, first, hmem, hdata⟩
      · cases m with
        | three pd mx my => unfold processMark at hm; cases hm
        | six lat lon x y total first =>
          simp only [processMark] at hm
          split at hm
          · cases hm
            exact .inl h₁
          · cases hm
            rcases List.mem_append.1 h₁ with hin | hnew
            · exact .inl hin
            · refine .inr ⟨lat, lon, x, y, total, first, List.mem_cons_self _ _, ?_⟩
              rw [List.mem_singleton.1 hnew]
      · exact .inr ⟨lat, lon, x, y, total, first, List.mem_cons_of_mem m hmem, hdata⟩

/-- Any record stored as the `first` of a grouped cell is the `first`
record of one of the buckets. -/
theorem group_fold_first {P : Record → Prop} (proj : ℚ → ℚ → ℚ × ℚ) (gs : ℕ) :
    ∀ (pts : List Bucket) (g0 : ℕ → ℕ → ℕ × Option Record),
      (∀ y x r, (g0 y x).2 = some r → P r) →
      (∀ b ∈ pts, P b.first) →
      ∀ y x r, ((pts.foldl (group_points_step proj gs) g0) y x).2 = some r → P r := by
  intro pts
  induction pts with
  | nil => intro g0 h0 _ y x r h; exact h0 y x r h
  | cons b rest ih =>
    intro g0 h0 hP y x r h
    rw [List.foldl_cons] at h
    refine ih (group_points_step proj gs g0 b) ?_ (fun b' hb' => hP b' (List.mem_cons_of_mem b hb')) y x r h
    intro y' x' r' h'
    unfold group_points_step at h'
    split at h'
    · exact h0 y' x' r' h'
    · simp only at h'
      split at h'
      · rcases hg : (g0 y' x').2 with _ | r₀
        · rw [hg] at h'
          simp only [Option.some.injEq] at h'
          exact h' ▸ hP b (List.mem_cons_self b rest)
        · rw [hg] at h'
          simp only [Option.some.injEq] at h'
          exact h' ▸ h0 y' x' r₀ hg
      · exact h0 y' x' r' h'

/-- Every mark yielded by `GriddedTile.get_marks` is the 6-tuple of some
bucket's first record: its latitude/longitude are that record's parsed
`meta.geo` pair, its cell is inside the grid, and its total is
positive. -/
theorem gridded_get_marks_shape (proj : ℚ → ℚ → ℚ × ℚ) (pts : List Bucket)
    (w gr : ℕ) :
    ∀ m ∈ gridded_get_marks proj pts w gr,
      ∃ (b : Bucket) (x y total : ℕ), b ∈ pts ∧ x < w / gr ∧ y < w / gr ∧ total ≠ 0 ∧
        m = .six b.first.geoLat b.first.geoLon (x : ℚ) (y : ℚ) total b.first := by
  intro m hm
  unfold gridded_get_marks at hm
  simp only [List.mem_flatMap, List.mem_filterMap, List.mem_range] at hm
  obtain ⟨y, hy, x, ⟨hx, hmx⟩⟩ := hm
  rcases hg : group_points proj pts w gr y x with ⟨total, first⟩
  rw [hg] at hmx
  match total, first, hmx with
  | total + 1, some r, hmx =>
    have hr : ∃ b ∈ pts, r = b.first := by
      refine group_fold_first (P := fun r => ∃ b ∈ pts, r = b.first) proj (w / gr)
        pts (fun _ _ => (0, none)) ?_ (fun b hb => ⟨b, hb, rfl⟩) y x r ?_
      · intro _ _ _ h
        cases h
      · show (group_points proj pts w gr y x).2 = some r
        rw [hg]
    obtain ⟨b, hb, rfl⟩ := hr
    simp only [Option.some.injEq] at hmx
    exact ⟨b, x, y, total + 1, hb, hx, hy, by omega, hmx.symm⟩

/-- The data entry built for a mark whose group coordinates are already
the record's parsed `meta.geo` pair always reports that pair, in both
the `total == 1` and the grouped branch, and always carries the point
`geo_filter` and the record's raw `data` subtree. -/
theorem markDataEntry_fields (r : Record) (total : ℕ) :
    (markDataEntry r.geoLat r.geoLon total r).lookup "record_latitude" =
        some (.num r.geoLat) ∧
    (markDataEntry r.geoLat r.geoLon total r).lookup "record_longitude" =
        some (.num r.geoLon) ∧
    (markDataEntry r.geoLat r.geoLon total r).lookup "geo_filter" =
        some (pointGeoFilter r.geoLon r.geoLat) ∧
    (markDataEntry r.geoLat r.geoLon total r).lookup "data" = some r.data := by
  by_cases h : total = 1 <;>
    simp +decide [markDataEntry, Json.lookup, jsonLookup, h]


/-! ## Concrete evaluation of a gridded run on the fixtures -/

/-- `round(0.0) = 0`. -/
theorem pyRound_q0 : pyRound (0 : ℚ) = 0 := by norm_num [pyRound]

/-- `round(1.0) = 1`. -/
theorem pyRound_q1 : pyRound (1 : ℚ) = 1 := by norm_num [pyRound]

/-- Grouping the single west bucket on the 2×2 grid: it lands in cell
`(x, y) = (0, 1)`. -/
theorem group_west (y x : ℕ) :
    group_points projTile0 [bucketWest] 256 128 y x =
      if y = 1 ∧ x = 0 then (1, some recordWest) else (0, none) := by
  unfold group_points group_points_step projTile0 bucketWest
  simp only [List.foldl]
  norm_num [pyInt]

/-- The gridded marks of the single west bucket. -/
theorem marks_west :
    gridded_get_marks projTile0 [bucketWest] 256 128 =
      [.six 0 (-90) 0 1 1 recordWest] := by
  unfold gridded_get_marks
  norm_num
  rw [show List.range 2 = [0, 1] from by decide]
  simp [group_west, recordWest]

/-- The full gridded UTFGrid of the single west bucket at
`grid_resolution = 128` (grid 2×2) and `point_width = 1`: one key, one
data entry, one marked cell. -/
theorem west_as_grid_eval :
    gridded_as_grid projTile0 [bucketWest] 256 128 1 =
      .ok ⟨[[32, 32], [33, 32]], ["", "1"],
           [("1", markDataEntry 0 (-90) 1 recordWest)]⟩ := by
  unfold gridded_as_grid
  rw [marks_west]
  unfold as_grid
  norm_num
  simp only [runMarks, processMark, pyRound_q0, pyRound_q1, initGridState]
  rw [show ((get_points_to_mark 0 1 1).filter
      (fun p => decide (0 ≤ p.1 ∧ p.1 < ((2:ℕ):ℤ) ∧ 0 ≤ p.2 ∧ p.2 < ((2:ℕ):ℤ)))) = [(0, 1)]
    from by decide]
  simp [writeCell, List.range_succ]
  rw [if_pos (show is_power_of_two 2 = true from by decide)]
  rw [show encode_id 1 = 33 from by decide]
  rfl

/-! ## C2: the gridded data entries -/

/-- **C2** (corrected: counterexample).  The single data entry of the
fixture gridded run does contain a `geo_filter` field — a GeoJSON Point
at the record's parsed coordinates — although the claim says gridded
entries carry none. -/
theorem gridded_entry_contains_geo_filter :
    (gridded_as_grid projTile0 [bucketWest] 256 128 1).map
        (fun g => g.data.map (fun e => (e.2).lookup "geo_filter")) =
      .ok [some (pointGeoFilter (-90) 0)] := by
  rw [west_as_grid_eval]
  rfl

/-- **C2** (corrected: amended).  In every gridded UTFGrid, every data
entry's `record_latitude`/`record_longitude` are the parsed `meta.geo`
pair of the representative record of one of the buckets — but the entry
also always contains a `geo_filter` field holding the GeoJSON Point at
those coordinates with distance "1m". -/
theorem gridded_data_reports_parsed_geo :
    ∀ (proj : ℚ → ℚ → ℚ × ℚ) (points : List Bucket)
      (width grid_resolution point_width : ℕ) (g : UtfGrid),
      gridded_as_grid proj points width grid_resolution point_width = .ok g →
      ∀ e ∈ g.data, ∃ b ∈ points,
        (e.2).lookup "record_latitude" = some (.num b.first.geoLat) ∧
        (e.2).lookup "record_longitude" = some (.num b.first.geoLon) ∧
        (e.2).lookup "geo_filter" =
          some (pointGeoFilter b.first.geoLon b.first.geoLat) := by
  intro proj pts w gr pw g hok e he
  simp only [gridded_as_grid, as_grid] at hok
  split at hok
  · cases hrun : runMarks (w / gr) pw initGridState (gridded_get_marks proj pts w gr) with
    | error err => rw [hrun] at hok; cases hok
    | ok st =>
      rw [hrun] at hok
      cases hok
      have hmem := runMarks_data_mem (w / gr) pw _ _ _ hrun e he
      rcases hmem with h0 | ⟨lat, lon, x, y, total, first, hmmem, hdata⟩
      · cases h0
      · obtain ⟨b, x', y', total', hb, hx, hy, ht, hshape⟩ :=
          gridded_get_marks_shape proj pts w gr _ hmmem
        injection hshape with hlat hlon hx2 hy2 htot hfirst
        subst hlat hlon htot hfirst
        rw [hdata]
        exact ⟨b, hb, (markDataEntry_fields b.first total).1,
          (markDataEntry_fields b.first total).2.1,
          (markDataEntry_fields b.first total).2.2.1⟩
  · cases hok

/-- Witness for C2's amended theorem on the fixture run. -/
theorem gridded_data_reports_parsed_geo_witness :
    (markDataEntry 0 (-90) 1 recordWest).lookup "record_latitude" =
        some (.num bucketWest.first.geoLat) ∧
    (markDataEntry 0 (-90) 1 recordWest).lookup "record_longitude" =
        some (.num bucketWest.first.geoLon) ∧
    (markDataEntry 0 (-90) 1 recordWest).lookup "geo_filter" =
        some (pointGeoFilter bucketWest.first.geoLon bucketWest.first.geoLat) := by
  have h := gridded_data_reports_parsed_geo projTile0 [bucketWest] 256 128 1 _
    west_as_grid_eval ("1", markDataEntry 0 (-90) 1 recordWest)
    (List.mem_singleton.2 rfl)
  obtain ⟨b, hb, h1, h2, h3⟩ := h
  rw [List.mem_singleton] at hb
  subst hb
  exact ⟨h1, h2, h3⟩

/-! ## C3: the data subtree is not rebuilt -/

/-- **C3** (corrected: counterexample).  The fixture record's `data`
subtree `{"a": {"_u": 5}}` is stored verbatim in the UTFGrid data entry,
while the record rebuild transformation maps it to `{"a": 5}`, which is a
different value — so the entry's `data` field does not equal the rebuild
of the representative record's `data` subtree. -/
theorem gridded_entry_data_not_rebuilt :
    (gridded_as_grid projTile0 [bucketWest] 256 128 1).map
        (fun g => g.data.map (fun e => (e.2).lookup "data")) =
      .ok [some (Json.obj [("a", Json.obj [("_u", Json.num 5)])])] ∧
    rebuild_dict_or_list (Json.obj [("a", Json.obj [("_u", Json.num 5)])]) =
      Json.obj [("a", Json.num 5)] ∧
    rebuild_data [("a", Json.obj [("_u", Json.num 5)])] = [("a", Json.num 5)] ∧
    Json.obj [("a", Json.obj [("_u", Json.num 5)])] ≠ Json.obj [("a", Json.num 5)] := by
  refine ⟨?_, ?_, ?_, ?_⟩
  · rw [west_as_grid_eval]
    rfl
  · simp +decide [rebuild_dict_or_list, rebuildFields, jsonLookup, startsWithUnderscore]
  · simp +decide [rebuild_data, rebuild_dict_or_list, jsonLookup]
  · intro h
    simp only [Json.obj.injEq, List.cons.injEq, Prod.mk.injEq] at h
    exact Json.noConfusion h.1.2

/-- **C3** (corrected: amended).  In every gridded UTFGrid, every data
entry's `data` field is the representative record's `data` subtree
verbatim, taken from one of the buckets; `rebuild_data` /
`rebuild_dict_or_list` exist in `maps/utils.py` but `as_grid` never
applies them. -/
theorem gridded_data_entry_verbatim :
    ∀ (proj : ℚ → ℚ → ℚ × ℚ) (points : List Bucket)
      (width grid_resolution point_width : ℕ) (g : UtfGrid),
      gridded_as_grid proj points width grid_resolution point_width = .ok g →
      ∀ e ∈ g.data, ∃ b ∈ points, (e.2).lookup "data" = some b.first.data := by
  intro proj pts w gr pw g hok e he
  simp only [gridded_as_grid, as_grid] at hok
  split at hok
  · cases hrun : runMarks (w / gr) pw initGridState (gridded_get_marks proj pts w gr) with
    | error err => rw [hrun] at hok; cases hok
    | ok st =>
      rw [hrun] at hok
      cases hok
      have hmem := runMarks_data_mem (w / gr) pw _ _ _ hrun e he
      rcases hmem with h0 | ⟨lat, lon, x, y, total, first, hmmem, hdata⟩
      · cases h0
      · obtain ⟨b, x', y', total', hb, hx, hy, ht, hshape⟩ :=
          gridded_get_marks_shape proj pts w gr _ hmmem
        injection hshape with hlat hlon hx2 hy2 htot hfirst
        subst hlat hlon htot hfirst
        rw [hdata]
        exact ⟨b, hb, (markDataEntry_fields b.first total).2.2.2⟩
  · cases hok

/-- Witness for C3's amended theorem on the fixture run. -/
theorem gridded_data_entry_verbatim_witness :
    (markDataEntry 0 (-90) 1 recordWest).lookup "data" =
      some bucketWest.first.data := by
  have h := gridded_data_entry_verbatim projTile0 [bucketWest] 256 128 1 _
    west_as_grid_eval ("1", markDataEntry 0 (-90) 1 recordWest)
    (List.mem_singleton.2 rfl)
  obtain ⟨b, hb, h1⟩ := h
  rw [List.mem_singleton] at hb
  subst hb
  exact h1


/-! ## C7: machinery for the key/character invariant -/

/-- `round` is the identity on (casts of) naturals. -/
theorem pyRound_natCast (n : ℕ) : pyRound (n : ℚ) = n := by
  unfold pyRound
  rw [Int.floor_natCast]
  norm_num

/-- The UTFGrid id encoding is strictly monotone: the `"` and `\` skips
preserve order. -/
theorem encode_id_strictMono : StrictMono encode_id := by
  intro a b h
  simp only [encode_id]
  split_ifs <;> omega

/-- Ids from 1 upward encode to characters that are not the space. -/
theorem encode_id_ge_33 (k : ℕ) (hk : 1 ≤ k) : 33 ≤ encode_id k := by
  simp only [encode_id]
  split_ifs <;> omega

/-- With `point_width ≤ 1` the diamond degenerates to the centre cell, so
processing a 6-tuple mark on an in-bounds cell `c` paints exactly that
cell with the next encoded id and appends the key and the data entry. -/
theorem processMark_six_cell (gs pw : ℕ) (hpw : pw ≤ 1)
    (st : GridState) (lat lon : ℚ) (total : ℕ) (first : Record) (c : ℕ × ℕ)
    (hx : c.1 < gs) (hy : c.2 < gs) :
    processMark gs pw st (.six lat lon (c.1 : ℚ) (c.2 : ℚ) total first) =
      .ok { cells := writeCell st.cells c.2 c.1 (encode_id st.nextId),
            keys := st.keys ++ [toString st.nextId],
            data := st.data ++
              [(toString st.nextId, markDataEntry lat lon total first)],
            nextId := st.nextId + 1 } := by
  have hoff : pw / 2 = 0 := by omega
  have hpts : get_points_to_mark ((c.1 : ℕ) : ℤ) ((c.2 : ℕ) : ℤ) pw =
      [(((c.1 : ℕ) : ℤ), ((c.2 : ℕ) : ℤ))] := by
    unfold get_points_to_mark
    rw [hoff]
    simp
  have hcond : (0 ≤ ((c.1 : ℕ) : ℤ) ∧ ((c.1 : ℕ) : ℤ) < (gs : ℤ) ∧
      0 ≤ ((c.2 : ℕ) : ℤ) ∧ ((c.2 : ℕ) : ℤ) < (gs : ℤ)) :=
    ⟨Int.natCast_nonneg _, by exact_mod_cast hx, Int.natCast_nonneg _,
      by exact_mod_cast hy⟩
  simp only [processMark, pyRound_natCast]
  rw [hpts, List.filter_cons, decide_eq_true hcond]
  simp only [List.filter_nil, if_true]
  rw [if_neg (by simp)]
  simp only [List.foldl_cons, List.foldl_nil, Int.toNat_natCast]

/-- Running the marking loop over 6-tuple marks sitting on pairwise
distinct in-bounds cells with `point_width ≤ 1`: the loop succeeds, ids
are handed out sequentially from the starting state's next id, each
mark's cell holds its own encoded id in the final grid (no later mark
overwrites it), and cells outside the list keep their starting
content. -/
theorem runMarks_distinct_cells (gs pw : ℕ) (hpw : pw ≤ 1) :
    ∀ (marks : List MarkTuple) (cells : List (ℕ × ℕ)),
      List.Forall₂ (sixAtCell gs) marks cells → cells.Nodup →
      ∀ st : GridState, ∃ st', runMarks gs pw st marks = .ok st' ∧
        st'.keys = st.keys ++
          (List.range marks.length).map (fun i => toString (st.nextId + i)) ∧
        st'.nextId = st.nextId + marks.length ∧
        (∀ (i : ℕ) (hi : i < cells.length),
          st'.cells (cells.get ⟨i, hi⟩).2 (cells.get ⟨i, hi⟩).1 =
            encode_id (st.nextId + i)) ∧
        (∀ Y X, (X, Y) ∉ cells → st'.cells Y X = st.cells Y X) := by
  intro marks
  induction marks with
  | nil =>
    intro cells hrel hnd st
    cases hrel
    refine ⟨st, rfl, by simp, by simp, ?_, fun Y X _ => rfl⟩
    intro i hi
    simp at hi
  | cons m ms ih =>
    intro cells hrel hnd st
    cases hrel with
    | cons hmc hrest =>
      rename_i c cs
      obtain ⟨lat, lon, total, first, hm, hx, hy⟩ := hmc
      subst hm
      have hstep := processMark_six_cell gs pw hpw st lat lon total first c hx hy
      obtain ⟨st', hrun', hkeys', hnext', hpaint', huntouch'⟩ :=
        ih cs hrest (List.Nodup.of_cons hnd) 
          { cells := writeCell st.cells c.2 c.1 (encode_id st.nextId),
            keys := st.keys ++ [toString st.nextId],
            data := st.data ++
              [(toString st.nextId, markDataEntry lat lon total first)],
            nextId := st.nextId + 1 }
      have hcnotin : c ∉ cs := (List.nodup_cons.1 hnd).1
      refine ⟨st', ?_, ?_, ?_, ?_, ?_⟩
      · unfold runMarks
        rw [hstep]
        exact hrun'
      · rw [hkeys']
        simp only [List.length_cons, List.range_succ_eq_map, List.map_cons,
          List.map_map, List.cons_append, List.append_assoc, List.nil_append,
          List.singleton_append, Function.comp]
        simp only [Nat.add_zero]
        refine congrArg (st.keys ++ ·) (congrArg (List.cons (toString st.nextId)) ?_)
        refine List.map_congr_left (fun i _ => ?_)
        simp only [Function.comp_apply]
        congr 1
        omega
      · rw [hnext']
        simp only [List.length_cons]
        omega
      · intro i hi
        match i with
        | 0 =>
          have huc := huntouch' c.2 c.1 (by simpa using hcnotin)
          have hc0 : ((c :: cs).get ⟨0, hi⟩) = c := rfl
          rw [hc0, huc]
          show writeCell st.cells c.2 c.1 (encode_id st.nextId) c.2 c.1 = _
          simp [writeCell]
        | j + 1 =>
          have hj : j < cs.length := by
            simp only [List.length_cons] at hi
            omega
          have hp := hpaint' j hj
          have hcs : ((c :: cs).get ⟨j + 1, hi⟩) = cs.get ⟨j, hj⟩ := rfl
          rw [hcs, hp]
          congr 1
          show st.nextId + 1 + j = st.nextId + (j + 1)
          omega
      · intro Y X hnotin
        have h1 : (X, Y) ∉ cs := fun hmem => hnotin (List.mem_cons_of_mem _ hmem)
        have h2 : (X, Y) ≠ c := fun heq => hnotin (heq ▸ List.mem_cons_self _ _)
        rw [huntouch' Y X h1]
        simp only [writeCell]
        rw [if_neg]
        intro ⟨hYc, hXc⟩
        exact h2 (by rw [hXc, hYc])


/-- `filterMap`s of the same list are pointwise related when at each
element both functions either skip or produce related values. -/
theorem forall₂_filterMap {ι α β : Type} (R : α → β → Prop) (l : List ι)
    (f : ι → Option α) (f' : ι → Option β)
    (h : ∀ i ∈ l, (f i = none ∧ f' i = none) ∨
      ∃ a b, f i = some a ∧ f' i = some b ∧ R a b) :
    List.Forall₂ R (l.filterMap f) (l.filterMap f') := by
  induction l with
  | nil => exact List.Forall₂.nil
  | cons hd tl ih =>
    rw [List.filterMap_cons, List.filterMap_cons]
    rcases h hd (List.mem_cons_self _ _) with ⟨h1, h2⟩ | ⟨a, b, h1, h2, hab⟩
    · rw [h1, h2]
      exact ih (fun i hi => h i (List.mem_cons_of_mem _ hi))
    · rw [h1, h2]
      exact List.Forall₂.cons hab (ih (fun i hi => h i (List.mem_cons_of_mem _ hi)))

/-- `flatMap`s of the same list are pointwise related when the per-element
lists are. -/
theorem forall₂_flatMap {ι α β : Type} (R : α → β → Prop) (l : List ι)
    (f : ι → List α) (f' : ι → List β)
    (h : ∀ i ∈ l, List.Forall₂ R (f i) (f' i)) :
    List.Forall₂ R (l.flatMap f) (l.flatMap f') := by
  induction l with
  | nil => exact List.Forall₂.nil
  | cons hd tl ih =>
    rw [List.flatMap_cons, List.flatMap_cons]
    exact List.rel_append (h hd (List.mem_cons_self _ _))
      (ih (fun i hi => h i (List.mem_cons_of_mem _ hi)))

/-- The marks of `GriddedTile.get_marks` sit, in order, on the cells
collected by `griddedCells`: stripping a mark to its cell coordinates
gives the corresponding non-empty cell. -/
theorem gridded_marks_forall₂ (proj : ℚ → ℚ → ℚ × ℚ) (pts : List Bucket)
    (w gr : ℕ) :
    List.Forall₂ (sixAtCell (w / gr)) (gridded_get_marks proj pts w gr)
      (griddedCells proj pts w gr) := by
  simp only [gridded_get_marks, griddedCells]
  refine forall₂_flatMap _ _ _ _ (fun y hy => ?_)
  refine forall₂_filterMap _ _ _ _ (fun x hx => ?_)
  rcases hg : group_points proj pts w gr y x with ⟨total, first⟩
  rcases total with _ | t <;> rcases first with _ | r
  · exact .inl ⟨rfl, rfl⟩
  · exact .inl ⟨rfl, rfl⟩
  · exact .inl ⟨rfl, rfl⟩
  · refine .inr ⟨_, _, rfl, rfl, ?_⟩
    exact ⟨r.geoLat, r.geoLon, t + 1, r, rfl, List.mem_range.1 hx,
      List.mem_range.1 hy⟩

/-- Every collected cell's second coordinate is the row it came from. -/
theorem griddedCells_row (proj : ℚ → ℚ → ℚ × ℚ) (pts : List Bucket)
    (w gr : ℕ) (y : ℕ) (b : ℕ × ℕ)
    (hb : b ∈ (List.range (w / gr)).filterMap (fun x =>
      match group_points proj pts w gr y x with
      | (0, _) => none
      | (_, none) => none
      | (_ + 1, some _) => some (x, y))) : b.2 = y := by
  rw [List.mem_filterMap] at hb
  obtain ⟨x, _, hxb⟩ := hb
  rcases hg : group_points proj pts w gr y x with ⟨total, first⟩
  rw [hg] at hxb
  rcases total with _ | t <;> rcases first with _ | r
  · cases hxb
  · cases hxb
  · cases hxb
  · cases hxb
    rfl

/-- The collected cells are pairwise distinct: within a row the `x`
coordinates are distinct, and across rows the `y` coordinates differ. -/
theorem griddedCells_nodup (proj : ℚ → ℚ → ℚ × ℚ) (pts : List Bucket)
    (w gr : ℕ) : (griddedCells proj pts w gr).Nodup := by
  simp only [griddedCells]
  rw [List.nodup_flatMap]
  constructor
  · intro y hy
    refine List.Nodup.filterMap ?_ (List.nodup_range _)
    intro a a' b hb hb'
    rcases hg : group_points proj pts w gr y a with ⟨total, first⟩
    rw [hg] at hb
    rcases hg' : group_points proj pts w gr y a' with ⟨total', first'⟩
    rw [hg'] at hb'
    rw [Option.mem_def] at hb hb'
    rcases total with _ | t <;> rcases first with _ | r <;> try cases hb
    rcases total' with _ | t' <;> rcases first' with _ | r' <;> try cases hb'
    rfl
  · refine List.Pairwise.imp ?_ (List.pairwise_lt_range _)
    intro y y' hyy b hb hb'
    have h1 := griddedCells_row proj pts w gr y b hb
    have h2 := griddedCells_row proj pts w gr y' b hb'
    omega


/-- **C7** (corrected: amended).  For every projection, bucket list and
power-of-two grid size, when `point_width ≤ 1` (so each mark paints only
its own cell; the gridded UTFGrid default is `point_width = 1`), the
gridded UTFGrid satisfies the invariant: the number of distinct
non-space characters in `grid` equals `len(keys) - 1`, and every
non-space character is the encoding of an index in `[1, len(keys)-1]`.
(For larger `point_width` the invariant fails: a later mark can repaint
every cell of an earlier mark — see the counterexample.) -/
theorem gridded_utfgrid_invariant :
    ∀ (proj : ℚ → ℚ → ℚ × ℚ) (points : List Bucket)
      (width grid_resolution point_width : ℕ),
      point_width ≤ 1 →
      is_power_of_two (width / grid_resolution) = true →
      ∃ g, gridded_as_grid proj points width grid_resolution point_width = .ok g ∧
        distinctNonSpaceCount g = g.keys.length - 1 ∧
        (∀ c ∈ (g.grid.flatten.filter (fun ch => ch ≠ 32)).toFinset,
          ∃ k, 1 ≤ k ∧ k ≤ g.keys.length - 1 ∧ encode_id k = c) := by
  intro proj pts w gr pw hpw hpow
  have hrel := gridded_marks_forall₂ proj pts w gr
  have hnd := griddedCells_nodup proj pts w gr
  obtain ⟨st, hrun, hkeys, hnext, hpaint, huntouch⟩ :=
    runMarks_distinct_cells (w / gr) pw hpw (gridded_get_marks proj pts w gr)
      (griddedCells proj pts w gr) hrel hnd initGridState
  have hlen : (gridded_get_marks proj pts w gr).length =
      (griddedCells proj pts w gr).length := List.Forall₂.length_eq hrel
  have hkeyslen : st.keys.length = (gridded_get_marks proj pts w gr).length + 1 := by
    rw [hkeys]
    simp [initGridState]
  have hbound : ∀ c ∈ griddedCells proj pts w gr, c.1 < w / gr ∧ c.2 < w / gr := by
    intro c hc
    obtain ⟨i, hi⟩ := List.mem_iff_get.1 hc
    have h2 := (List.forall₂_iff_get.1 hrel).2 i.1 (by have := i.2; omega) i.2
    obtain ⟨lat, lon, total, first, _, hcx, hcy⟩ := h2
    rw [hi] at hcx hcy
    exact ⟨hcx, hcy⟩
  -- characterise membership in the serialised grid character list
  have hmemiff : ∀ ch, ch ∈ ((List.range (w / gr)).map
      (fun y => (List.range (w / gr)).map (st.cells y))).flatten ↔
      ∃ y x, y < w / gr ∧ x < w / gr ∧ st.cells y x = ch := by
    intro ch
    rw [List.mem_flatten]
    constructor
    · rintro ⟨row, hrow, hchrow⟩
      rw [List.mem_map] at hrow
      obtain ⟨y, hy, rfl⟩ := hrow
      rw [List.mem_map] at hchrow
      obtain ⟨x, hx, hch⟩ := hchrow
      exact ⟨y, x, List.mem_range.1 hy, List.mem_range.1 hx, hch⟩
    · rintro ⟨y, x, hy, hx, hch⟩
      refine ⟨(List.range (w / gr)).map (st.cells y), ?_, ?_⟩
      · rw [List.mem_map]
        exact ⟨y, List.mem_range.2 hy, rfl⟩
      · rw [List.mem_map]
        exact ⟨x, List.mem_range.2 hx, hch⟩
  -- the value at any cell: painted with its own id, or untouched space
  have hval : ∀ y x, (∃ i : Fin (griddedCells proj pts w gr).length,
      (griddedCells proj pts w gr).get i = (x, y) ∧
      st.cells y x = encode_id (1 + i.1)) ∨ st.cells y x = 32 := by
    intro y x
    by_cases hcx : ((x, y) : ℕ × ℕ) ∈ griddedCells proj pts w gr
    · obtain ⟨i, hi⟩ := List.mem_iff_get.1 hcx
      left
      refine ⟨i, hi, ?_⟩
      have hp := hpaint i.1 i.2
      rw [hi] at hp
      rw [show initGridState.nextId = 1 from rfl] at hp
      exact hp
    · right
      have hu := huntouch y x hcx
      rw [show initGridState.cells y x = 32 from rfl] at hu
      exact hu
  refine ⟨⟨(List.range (w / gr)).map (fun y => (List.range (w / gr)).map (st.cells y)),
    st.keys, st.data⟩, ?_, ?_, ?_⟩
  · simp only [gridded_as_grid, as_grid, hpow, if_true]
    rw [hrun]
  · -- the distinct non-space count equals len(keys) - 1
    have hset : (((List.range (w / gr)).map
          (fun y => (List.range (w / gr)).map (st.cells y))).flatten.filter
          (fun ch => ch ≠ 32)).toFinset =
        (Finset.range (gridded_get_marks proj pts w gr).length).image
          (fun i => encode_id (1 + i)) := by
      ext ch
      rw [List.mem_toFinset, Finset.mem_image, List.mem_filter]
      constructor
      · rintro ⟨hmem, hne⟩
        obtain ⟨y, x, hy, hx, hch⟩ := (hmemiff ch).1 hmem
        rcases hval y x with ⟨i, hic, hiv⟩ | h32
        · exact ⟨i.1, Finset.mem_range.2 (by have := i.2; omega), by rw [← hiv, hch]⟩
        · rw [hch] at h32
          simp [h32] at hne
      · rintro ⟨i, hi, rfl⟩
        rw [Finset.mem_range] at hi
        have hilen : i < (griddedCells proj pts w gr).length := by omega
        have hp := hpaint i hilen
        rw [show initGridState.nextId = 1 from rfl] at hp
        obtain ⟨hbx, hby⟩ := hbound _ (List.get_mem _ _ _)
        refine ⟨(hmemiff _).2 ⟨_, _, hby, hbx, hp⟩, ?_⟩
        have h33 := encode_id_ge_33 (1 + i) (by omega)
        simp only [decide_eq_true_eq]
        omega
    show ((((List.range (w / gr)).map
        (fun y => (List.range (w / gr)).map (st.cells y))).flatten.filter
        (fun ch => ch ≠ 32)).dedup).length = st.keys.length - 1
    rw [← List.card_toFinset, hset, hkeyslen]
    rw [Finset.card_image_of_injective _ (fun a b hab => by
      have := encode_id_strictMono.injective hab
      omega)]
    simp
  · -- every non-space character decodes into [1, len(keys) - 1]
    intro c hc
    rw [List.mem_toFinset, List.mem_filter] at hc
    obtain ⟨hmem, hne⟩ := hc
    obtain ⟨y, x, hy, hx, hch⟩ := (hmemiff c).1 hmem
    rcases hval y x with ⟨i, hic, hiv⟩ | h32
    · refine ⟨1 + i.1, by omega, ?_, by rw [← hiv, hch]⟩
      show 1 + i.1 ≤ st.keys.length - 1
      rw [hkeyslen]
      have : i.1 < (griddedCells proj pts w gr).length := i.2
      omega
    · rw [hch] at h32
      simp [h32] at hne


/-- Grouping both fixture buckets on the 2×2 grid: the west bucket lands
in cell `(0, 1)` and the east bucket in the adjacent cell `(1, 1)`. -/
theorem group_both (y x : ℕ) :
    group_points projTile0 [bucketWest, bucketEast] 256 128 y x =
      if y = 1 ∧ x = 0 then (1, some recordWest)
      else if y = 1 ∧ x = 1 then (1, some recordEast)
      else (0, none) := by
  unfold group_points group_points_step projTile0 bucketWest bucketEast
  simp only [List.foldl]
  norm_num [pyInt]
  by_cases h1 : y = 1 <;> by_cases h0 : x = 0 <;> by_cases h2 : x = 1 <;>
    simp [h1, h0, h2]

/-- The gridded marks of the two fixture buckets: two adjacent cells in
row 1, in row-major order. -/
theorem marks_both :
    gridded_get_marks projTile0 [bucketWest, bucketEast] 256 128 =
      [.six 0 (-90) 0 1 1 recordWest, .six 0 90 1 1 1 recordEast] := by
  unfold gridded_get_marks
  norm_num
  rw [show List.range 2 = [0, 1] from by decide]
  simp [group_both, recordWest, recordEast]

/-- **C7** (corrected: counterexample).  With `point_width = 5` the
second mark's diamond repaints every cell the first mark painted, so the
grid contains a single distinct non-space character while `keys` has two
non-empty entries: the invariant `distinct = len(keys) - 1` fails
(1 ≠ 2). -/
theorem gridded_utfgrid_overwrite :
    (gridded_as_grid projTile0 [bucketWest, bucketEast] 256 128 5).map
        (fun g => (g.grid, g.keys, distinctNonSpaceCount g)) =
      .ok ([[35, 35], [35, 35]], ["", "1", "2"], 1) ∧ (1 : ℕ) ≠ 3 - 1 := by
  constructor
  · unfold gridded_as_grid
    rw [marks_both]
    unfold as_grid
    norm_num
    simp only [runMarks, processMark, pyRound_q0, pyRound_q1, initGridState]
    rw [show ((get_points_to_mark 0 1 5).filter
        (fun p => decide (0 ≤ p.1 ∧ p.1 < ((2:ℕ):ℤ) ∧ 0 ≤ p.2 ∧ p.2 < ((2:ℕ):ℤ)))) =
        [(0, 0), (0, 1), (1, 0), (1, 1)] from by decide]
    rw [show ((get_points_to_mark 1 1 5).filter
        (fun p => decide (0 ≤ p.1 ∧ p.1 < ((2:ℕ):ℤ) ∧ 0 ≤ p.2 ∧ p.2 < ((2:ℕ):ℤ)))) =
        [(0, 0), (0, 1), (1, 0), (1, 1)] from by decide]
    simp [writeCell, List.range_succ]
    rw [if_pos (show is_power_of_two 2 = true from by decide)]
    rw [show encode_id 2 = 35 from by decide]
    rfl
  · decide

/-- Witness for C7's amended theorem: the single-bucket fixture run at
the default `point_width = 1` has one distinct non-space character and
two keys. -/
theorem gridded_utfgrid_invariant_witness :
    (gridded_as_grid projTile0 [bucketWest] 256 128 1).map
        (fun g => (distinctNonSpaceCount g, g.keys.length - 1)) = .ok (1, 1) := by
  obtain ⟨g, hg, hcount, _⟩ := gridded_utfgrid_invariant projTile0 [bucketWest]
    256 128 1 (by norm_num) (by decide)
  rw [hg]
  have hge : g = ⟨[[32, 32], [33, 32]], ["", "1"],
      [("1", markDataEntry 0 (-90) 1 recordWest)]⟩ := by
    have h2 := west_as_grid_eval
    rw [hg] at h2
    injection h2
  subst hge
  rw [Except.map]
  rw [hcount]
  rfl

end Maps
